import Mathlib

/-!
Shallow embedding of the chain-state synchronization and call-decoding core of
the clad-dashboard repository (SvelteKit + polkadot-js client code), together
with proofs about it.

Conventions used throughout:
* JavaScript `number` values that the code only ever uses as non-negative
  integers (block numbers, timestamps, decimal precisions) are embedded as
  `Nat`; `bigint` amounts that the relevant claims restrict to non-negative
  values are embedded as `Nat`, and as `Int` where sign behaviour matters.
* Strings are Lean `String`s; byte arrays (`Uint8Array`) are `List (Fin 256)`.
* Exceptions thrown by the platform (fetch, JSON.parse, SCALE decoding) are
  embedded as explicit sum/option data so that the `try/catch` structure of
  the source becomes a total function on those outcomes.
* The handful of platform/library primitives the code calls (`toLocaleString`,
  `padStart`, `BigInt(10 ** d)`, `JSON.stringify`, `blake2AsHex`, `u8aToU8a`)
  are modelled explicitly below, each next to the source function using it.
-/

/-- JavaScript truthy `a || b` on optional strings: `undefined`/`null` and the
empty string fall through to the right operand. -/
def jsOrString (a : Option String) (b : Option String) : Option String :=
  match a with
  | none => b
  | some s => if s = "" then b else some s

/-- Substring containment, modelling JavaScript `String.prototype.includes`
on the character-list view of the strings. -/
def listInfix (needle hay : List Char) : Bool :=
  match hay with
  | [] => needle.isEmpty
  | _ :: t => needle.isPrefixOf hay || listInfix needle t

/-- String form of `listInfix`, used for the `message.includes('fetch')`
check in the backend client. -/
def strIncludes (hay needle : String) : Bool :=
  listInfix needle.data hay.data

/-- ASCII lower-casing of one character, modelling what
`String.prototype.toLowerCase` does on the hexadecimal digest strings the
code lower-cases (those strings are pure ASCII). -/
def asciiLowerChar (c : Char) : Char :=
  if 'A' ≤ c ∧ c ≤ 'Z' then Char.ofNat (c.toNat + 32) else c

/-- Model of `String.prototype.toLowerCase` (ASCII range). -/
def jsToLowerCase (s : String) : String :=
  ⟨s.data.map asciiLowerChar⟩

/-- Insert a thousands separator every three digits, working on the reversed
digit list. -/
def group3 : List Char → List Char
  | a :: b :: c :: d :: rest => a :: b :: c :: ',' :: group3 (d :: rest)
  | l => l

/-- Model of `BigInt.prototype.toLocaleString` for non-negative values in an
en-US-style locale: decimal digits with a comma every three digits. -/
def natToLocaleString (n : Nat) : String :=
  ⟨(group3 (toString n).data.reverse).reverse⟩

/-- Model of `BigInt.prototype.toLocaleString` including the sign. -/
def intToLocaleString (i : Int) : String :=
  if i < 0 then "-" ++ natToLocaleString i.natAbs else natToLocaleString i.natAbs

/-- Model of `String.prototype.padStart(n, c)`. -/
def padStart (s : String) (n : Nat) (c : Char) : String :=
  ⟨List.replicate (n - s.length) c ++ s.data⟩

/-- Model of `String.prototype.padEnd(n, c)`. -/
def padEnd (s : String) (n : Nat) (c : Char) : String :=
  ⟨s.data ++ List.replicate (n - s.length) c⟩

/-- Model of `s.replace(/0+$/, '')`: drop every trailing zero digit. -/
def trimTrailingZeros (s : String) : String :=
  ⟨(s.data.reverse.dropWhile (fun c => c == '0')).reverse⟩

/-- Fuel-driven binary length of a natural number. -/
def bitLenAux : Nat → Nat → Nat
  | 0, _ => 0
  | fuel + 1, n => if n = 0 then 0 else bitLenAux fuel (n / 2) + 1

/-- Number of binary digits of `n` (`0` for `0`). -/
def bitLen (n : Nat) : Nat := bitLenAux n n

/-- Round a natural number to 53 significant binary digits using
round-half-to-even, which is exactly how an integer too large for an IEEE 754
double mantissa is converted to the nearest double. -/
def roundTo53 (m : Nat) : Nat :=
  if m < 2 ^ 53 then m
  else
    let k := bitLen m - 53
    let q := m >>> k
    let r := m % 2 ^ k
    let half := 2 ^ (k - 1)
    if r < half then q <<< k
    else if half < r then (q + 1) <<< k
    else if q % 2 = 0 then q <<< k else (q + 1) <<< k

/-- The exact integer value of the JavaScript expression `BigInt(10 ** d)`:
`10 ** d` is evaluated in double precision, so the result is `10 ^ d` rounded
to 53 significant bits (exact for `d ≤ 22`, inexact from `d = 23` on). -/
def jsPow10 (d : Nat) : Nat := roundTo53 (10 ^ d)

/-- `formatBalance` from `src/lib/substrate/types.ts`, for the non-negative
amounts the claims quantify over. The divisor is `BigInt(10 ** decimals)`
exactly as the source computes it, i.e. `jsPow10 decimals`. -/
def formatBalance (rawBalance : Nat) (decimals : Nat) : String :=
  let divisor := jsPow10 decimals
  let integerPart := rawBalance / divisor
  let fractionalPart := rawBalance % divisor
  let fractionalStr := padStart (toString fractionalPart) decimals '0'
  let trimmedFractional := padEnd (trimTrailingZeros fractionalStr) 2 '0'
  natToLocaleString integerPart ++ "." ++ trimmedFractional

/-- The formatting the specification describes, written from the spec's words:
integer part of `rawBalance / 10 ^ decimals` with thousands separators, a dot,
then the fractional digits with trailing zeros trimmed but at least two
fractional digits kept. -/
def formatBalanceSpec (rawBalance : Nat) (decimals : Nat) : String :=
  let integerPart := rawBalance / 10 ^ decimals
  let fractionalPart := rawBalance % 10 ^ decimals
  let fractionalStr := padStart (toString fractionalPart) decimals '0'
  natToLocaleString integerPart ++ "." ++ padEnd (trimTrailingZeros fractionalStr) 2 '0'

/-- Lower-case hexadecimal digit for a value below 16. -/
def hexDigitLower (n : Nat) : Char :=
  if n < 10 then Char.ofNat (48 + n) else Char.ofNat (87 + n)

/-- Numeric value of a lower-case hexadecimal digit (0 for other input). -/
def hexVal (c : Char) : Nat :=
  if '0' ≤ c ∧ c ≤ '9' then c.toNat - 48
  else if 'a' ≤ c ∧ c ≤ 'f' then c.toNat - 87
  else 0

/-- Escaping of one character as performed by `JSON.stringify` inside a string
literal: quote and backslash get a backslash escape, the named control
characters get their short escapes, the remaining control characters get a
`\u00XY` escape, everything else is emitted verbatim. -/
def escapeChar (c : Char) : List Char :=
  if c = Char.ofNat 34 then [Char.ofNat 92, Char.ofNat 34]
  else if c = Char.ofNat 92 then [Char.ofNat 92, Char.ofNat 92]
  else if c = Char.ofNat 8 then [Char.ofNat 92, 'b']
  else if c = Char.ofNat 9 then [Char.ofNat 92, 't']
  else if c = Char.ofNat 10 then [Char.ofNat 92, 'n']
  else if c = Char.ofNat 12 then [Char.ofNat 92, 'f']
  else if c = Char.ofNat 13 then [Char.ofNat 92, 'r']
  else if c.toNat < 32 then
    [Char.ofNat 92, 'u', '0', '0', hexDigitLower (c.toNat / 16), hexDigitLower (c.toNat % 16)]
  else [c]

/-- A JSON string literal (both quotes included) for the character list `s`. -/
def renderQuoted (s : List Char) : List Char :=
  Char.ofNat 34 :: (s.map escapeChar).flatten ++ [Char.ofNat 34]

/-- The members of a JSON object with string values, in insertion order,
separated by commas: `"k":"v"` for each pair. -/
def renderPairs : List (String × String) → List Char
  | [] => []
  | [(k, v)] => renderQuoted k.data ++ ':' :: renderQuoted v.data
  | (k, v) :: p :: rest =>
    renderQuoted k.data ++ ':' :: renderQuoted v.data ++ ',' :: renderPairs (p :: rest)

/-- `JSON.stringify` on the flat string-valued records the event parser
produces. Property keys keep their insertion order, which is what
`JSON.stringify` does for non-numeric keys. -/
def jsonStringifyFlat (data : List (String × String)) : String :=
  ⟨Char.ofNat 123 :: renderPairs data ++ [Char.ofNat 125]⟩

/-- `generateEventId` from the events page: block hash, event type and the
`JSON.stringify` of the payload, joined by hyphens. -/
def generateEventId (blockHash : String) (type : String) (data : List (String × String)) :
    String :=
  blockHash ++ "-" ++ type ++ "-" ++ jsonStringifyFlat data

/-- One ledger event as the events page stores it (`TokenEvent` in
`src/lib/substrate/types.ts`); the payload is the flat string-valued record
built by `parseBlockEvents`. -/
structure TokenEvent where
  id : String
  type : String
  blockNumber : Nat
  blockHash : String
  timestamp : Option Nat
  data : List (String × String)
deriving DecidableEq

/-- The fixed list of ledger-relevant event kinds from the events page. -/
def eventTypes : List String :=
  ["Minted", "Transferred", "Frozen", "Unfrozen", "Whitelisted", "RemovedFromWhitelist"]

/-- The id regeneration applied to each event loaded from storage
(`loadEventsFromStorage`'s migration map). -/
def migrateEvent (e : TokenEvent) : TokenEvent :=
  { e with id := generateEventId e.blockHash e.type e.data }

/-- The value found under the `clad-token-events` key: either a blob that
parses back into an event list, or a corrupted blob on which `JSON.parse`
throws. -/
inductive StoredEventsValue where
  | parsed (events : List TokenEvent)
  | corrupt
deriving DecidableEq

/-- The two browser-local storage entries the events page owns:
`clad-token-events` and `clad-token-events-genesis`. -/
structure EventStorage where
  eventsEntry : Option StoredEventsValue
  genesisEntry : Option String
deriving DecidableEq

/-- Helper for `loadEventsFromStorage`: the branch that reads and migrates the
stored list once the genesis check has passed, including the `catch` branch
that clears both entries when `JSON.parse` throws. -/
def readStoredEvents (st : EventStorage) : List TokenEvent × EventStorage :=
  match st.eventsEntry with
  | some (.parsed events) => (events.map migrateEvent, st)
  | some .corrupt => ([], ⟨none, none⟩)
  | none => ([], st)

/-- `loadEventsFromStorage` from the events page, returning both the loaded
list and the storage contents afterwards. The guard mirrors the source's
truthiness test `storedGenesis && storedGenesis !== genesisHash`. -/
def loadEventsFromStorage (genesisHash : String) (st : EventStorage) :
    List TokenEvent × EventStorage :=
  match st.genesisEntry with
  | some storedGenesis =>
    if storedGenesis ≠ "" ∧ storedGenesis ≠ genesisHash then ([], ⟨none, none⟩)
    else readStoredEvents st
  | none => readStoredEvents st

/-- Descending block-number order used to sort the merged event log; the
comparator in the source is `(a, b) => b.blockNumber - a.blockNumber`. -/
def evGe (a b : TokenEvent) : Prop := b.blockNumber ≤ a.blockNumber

instance : DecidableRel evGe := fun a b => Nat.decLe b.blockNumber a.blockNumber

instance : IsTotal TokenEvent evGe := ⟨fun a b => Nat.le_total b.blockNumber a.blockNumber⟩

instance : IsTrans TokenEvent evGe := ⟨fun _ _ _ h1 h2 => Nat.le_trans h2 h1⟩

/-- The merge input assembled by `fetchRecentEvents`: the freshly fetched
events deduplicated by id against the in-memory log, prepended to it. -/
def fetchMergedInput (newEvents events : List TokenEvent) : List TokenEvent :=
  let existingIds := events.map (fun e => e.id)
  let uniqueNewEvents := newEvents.filter (fun e => !(existingIds.contains e.id))
  uniqueNewEvents ++ events

/-- The merge step of `fetchRecentEvents` (backfill path): deduplicate by id,
sort by descending block number with a stable sort (JavaScript `Array.sort`
is stable), keep at most 500. -/
def fetchRecentEventsMerge (newEvents events : List TokenEvent) : List TokenEvent :=
  (List.insertionSort evGe (fetchMergedInput newEvents events)).take 500

/-- The merge step of the `subscribeNewHeads` handler in
`startEventSubscription` (live path): prepend the new block's events and keep
at most 500. -/
def startEventSubscriptionMerge (newEvents events : List TokenEvent) : List TokenEvent :=
  (newEvents ++ events).take 500

/-- The operation kinds a decoded call can carry (`TokenOperationType` in
`src/lib/substrate/types.ts`). -/
inductive TokenOperationType where
  | Mint
  | Transfer
  | Freeze
  | Unfreeze
  | AddToWhitelist
  | RemoveFromWhitelist
  | SetAdmin
  | Unknown
deriving DecidableEq

/-- The optional parameter record of a decoded operation; the source's `to` and `from`
fields are called `toAddr` and `fromAddr` here because those names are
reserved in Lean. -/
structure OperationParams where
  toAddr : Option String
  fromAddr : Option String
  account : Option String
  newAdmin : Option String
  amount : Option Int
deriving DecidableEq

/-- The all-absent parameter record `{}`. -/
def emptyParams : OperationParams := ⟨none, none, none, none, none⟩

/-- A decoded token operation. -/
structure TokenOperation where
  type : TokenOperationType
  params : OperationParams
deriving DecidableEq

/-- The fixed lookup table from `cladToken` call names to operation kinds. -/
def CLAD_TOKEN_CALL_MAP : List (String × TokenOperationType) :=
  [("mint", .Mint), ("transfer", .Transfer), ("freeze", .Freeze), ("unfreeze", .Unfreeze),
   ("add_to_whitelist", .AddToWhitelist), ("remove_from_whitelist", .RemoveFromWhitelist),
   ("set_admin", .SetAdmin)]

/-- Call arguments as the decoder sees them: an array-like object with both
named properties and positional indices (already `toString`-ed). -/
structure CallArgs where
  named : List (String × String)
  positional : List String
deriving DecidableEq

/-- Named-property access `argsObj.<name>?.toString()`. -/
def argNamed (args : CallArgs) (k : String) : Option String :=
  args.named.lookup k

/-- Positional access `argsObj[<i>]?.toString()`. -/
def argPos (args : CallArgs) (i : Nat) : Option String :=
  args.positional[i]?

/-- Decimal digit run to a natural number (none on a non-digit or empty run). -/
def parseDecimalDigits (l : List Char) : Option Nat :=
  if l.isEmpty then none
  else
    l.foldl
      (fun acc c =>
        acc.bind fun n => if '0' ≤ c ∧ c ≤ '9' then some (n * 10 + (c.toNat - 48)) else none)
      (some 0)

/-- Whitespace as trimmed by the `BigInt` constructor. -/
def isJsSpace (c : Char) : Bool :=
  c = ' ' || c = Char.ofNat 9 || c = Char.ofNat 10 || c = Char.ofNat 13

/-- Model of `BigInt(string)` on the decimal strings the decoder feeds it:
surrounding whitespace is ignored, the empty string is `0`, an optional sign
precedes the digits, anything else throws (`none` here). The radix-prefix
forms accepted by `BigInt` do not occur in this code's inputs and are
omitted. -/
def jsBigIntParse (s : String) : Option Int :=
  let t := ((s.data.dropWhile isJsSpace).reverse.dropWhile isJsSpace).reverse
  match t with
  | [] => some 0
  | '-' :: rest => (parseDecimalDigits rest).map (fun n => -(n : Int))
  | '+' :: rest => (parseDecimalDigits rest).map (fun n => (n : Int))
  | _ => (parseDecimalDigits t).map (fun n => (n : Int))

/-- `parseAmount` from the call decoder: `undefined` and the empty string give
`undefined`, otherwise `BigInt(amountStr)` with a `try/catch` to `undefined`. -/
def parseAmount (amountStr : Option String) : Option Int :=
  match amountStr with
  | none => none
  | some s => if s = "" then none else jsBigIntParse s

/-- `parseCladTokenArgs` from the call decoder: positional fallback after the
named lookup, mirroring `argsObj.x?.toString() || argsObj[i]?.toString()`. -/
def parseCladTokenArgs (opType : TokenOperationType) (args : CallArgs) : TokenOperation :=
  match opType with
  | .Mint =>
    ⟨.Mint, { emptyParams with
      toAddr := jsOrString (argNamed args "to") (argPos args 0),
      amount := parseAmount (jsOrString (argNamed args "amount") (argPos args 1)) }⟩
  | .Transfer =>
    ⟨.Transfer, { emptyParams with
      fromAddr := jsOrString (argNamed args "from") (argPos args 0),
      toAddr := jsOrString (argNamed args "to") (argPos args 1),
      amount := parseAmount (jsOrString (argNamed args "amount") (argPos args 2)) }⟩
  | .Freeze =>
    ⟨.Freeze, { emptyParams with account := jsOrString (argNamed args "account") (argPos args 0) }⟩
  | .Unfreeze =>
    ⟨.Unfreeze, { emptyParams with account := jsOrString (argNamed args "account") (argPos args 0) }⟩
  | .AddToWhitelist =>
    ⟨.AddToWhitelist, { emptyParams with
      account := jsOrString (argNamed args "account") (argPos args 0) }⟩
  | .RemoveFromWhitelist =>
    ⟨.RemoveFromWhitelist, { emptyParams with
      account := jsOrString (argNamed args "account") (argPos args 0) }⟩
  | .SetAdmin =>
    ⟨.SetAdmin, { emptyParams with
      newAdmin := jsOrString (argNamed args "new_admin") (argPos args 0) }⟩
  | .Unknown => ⟨.Unknown, emptyParams⟩

/-- `parseTokenOperation` from the call decoder. -/
def parseTokenOperation (palletName callName : String) (args : CallArgs) : TokenOperation :=
  if palletName = "cladToken" then
    match CLAD_TOKEN_CALL_MAP.lookup callName with
    | some opType => parseCladTokenArgs opType args
    | none => ⟨.Unknown, emptyParams⟩
  else ⟨.Unknown, emptyParams⟩

/-- The CLAD token decimal precision from `TOKEN_CONFIG`. -/
def CLAD_DECIMALS : Nat := 6

/-- The `formatAddr` helper of `generateDescription`: first six plus last four
characters, `?` for a missing (or falsy empty) address. -/
def formatAddr (addr : Option String) : String :=
  match addr with
  | none => "?"
  | some a =>
    if a = "" then "?"
    else ⟨a.data.take 6⟩ ++ "..." ++ ⟨(a.data.reverse.take 4).reverse⟩

/-- The `formatAmt` helper of `generateDescription`: truncating division and
remainder by `BigInt(10 ** 6)`, remainder digits padded to six and cut to the
first two. A zero amount is falsy in `if (!amt)` and prints `?`. -/
def formatAmt (amt : Option Int) : String :=
  match amt with
  | none => "?"
  | some a =>
    if a = 0 then "?"
    else
      let divisor : Int := jsPow10 CLAD_DECIMALS
      let whole := a.tdiv divisor
      let frac := a.tmod divisor
      let fracStr : String := ⟨(padStart (toString frac) CLAD_DECIMALS '0').data.take 2⟩
      intToLocaleString whole ++ "." ++ fracStr

/-- `generateDescription` from the call decoder. -/
def generateDescription (palletName callName : String) (operation : TokenOperation) : String :=
  match operation.type with
  | .Unknown => palletName ++ "." ++ callName
  | .Mint =>
    "Mint " ++ formatAmt operation.params.amount ++ " CLAD to " ++ formatAddr operation.params.toAddr
  | .Transfer =>
    "Transfer " ++ formatAmt operation.params.amount ++ " CLAD from " ++
      formatAddr operation.params.fromAddr ++ " to " ++ formatAddr operation.params.toAddr
  | .Freeze => "Freeze account " ++ formatAddr operation.params.account
  | .Unfreeze => "Unfreeze account " ++ formatAddr operation.params.account
  | .AddToWhitelist => "Add " ++ formatAddr operation.params.account ++ " to whitelist"
  | .RemoveFromWhitelist => "Remove " ++ formatAddr operation.params.account ++ " from whitelist"
  | .SetAdmin => "Set admin to " ++ formatAddr operation.params.newAdmin

/-- A successfully SCALE-parsed call: section (pallet), method (call) and the
argument object; the source reads these off `api.createType('Call', data)`. -/
structure ParsedCall where
  sectionName : String
  methodName : String
  args : CallArgs
deriving DecidableEq

/-- `DecodedCall` from the call decoder. -/
structure DecodedCall where
  success : Bool
  palletName : Option String
  callName : Option String
  operation : Option TokenOperation
  description : Option String
  error : Option String
deriving DecidableEq

/-- `decodeCall` from the call decoder. The SCALE parse performed by
`api.createType('Call', ...)` against live chain metadata is the `Except`
argument: `error msg` is the thrown-exception outcome caught by the
source's `try/catch`, `ok` the successfully parsed call. -/
def decodeCall (parsed : Except String ParsedCall) : DecodedCall :=
  match parsed with
  | .error msg => ⟨false, none, none, none, none, some msg⟩
  | .ok call =>
    let operation := parseTokenOperation call.sectionName call.methodName call.args
    let description := generateDescription call.sectionName call.methodName operation
    ⟨true, some call.sectionName, some call.methodName, some operation, some description, none⟩

/-- A multisig timepoint (block height and extrinsic index). -/
structure MultisigTimepoint where
  height : Nat
  index : Nat
deriving DecidableEq

/-- The result of `parseMultisigValue` on one storage value. -/
structure MultisigParsedValue where
  when : MultisigTimepoint
  deposit : Nat
  depositor : String
  approvals : List String
deriving DecidableEq

/-- One storage value under `multisig.multisigs`: `absent` is an `Option`
wrapper with `isSome === false`; `present none` is a wrapped value on which
`parseMultisigValue` throws (caught, yielding `null`); `present (some v)`
parses to `v`. -/
inductive MultisigStorageValue where
  | absent
  | present (raw : Option MultisigParsedValue)
deriving DecidableEq

/-- One enumerated storage entry: the decomposed key arguments
(`[multisigAccount, callHash]`, already rendered to strings) and the value. -/
structure MultisigEntry where
  keyArgs : List String
  value : MultisigStorageValue
deriving DecidableEq

/-- A registry entry from `src/lib/config/multisig-accounts.ts`; signatories
carry an address and an optional display name. -/
structure MultisigConfig where
  address : String
  name : String
  threshold : Nat
  signatories : List (String × Option String)
deriving DecidableEq

/-- `PendingProposal` from `src/lib/substrate/types.ts`. -/
structure PendingProposal where
  id : String
  multisigAccount : String
  callHash : String
  operation : TokenOperation
  depositor : String
  deposit : Nat
  approvals : List String
  threshold : Nat
  signatories : List String
  when : MultisigTimepoint
  timestamp : Option Nat
deriving DecidableEq

/-- The observable outcome of `fetchPendingProposals` on the multisig page:
the proposals list and the inline error message (or `none` on success). -/
structure FetchProposalsResult where
  proposals : List PendingProposal
  error : Option String
deriving DecidableEq

/-- First pass of `fetchPendingProposals`: keep the entries with a two-part
key that pass the account filter, have a present `Option` wrapper, and parse. -/
def multisigFirstPass (entries : List MultisigEntry) (activeMultisigAccount : Option String) :
    List (String × String × MultisigParsedValue) :=
  entries.filterMap fun ent =>
    match ent.keyArgs with
    | multisigAccount :: callHash :: _ =>
      if (match activeMultisigAccount with
          | some acct => multisigAccount != acct
          | none => false) then none
      else
        match ent.value with
        | .absent => none
        | .present none => none
        | .present (some parsed) => some (multisigAccount, callHash, parsed)
    | _ => none

/-- `fetchPendingProposals` from `src/routes/multisig/+page.svelte`, as a
function of the chain view: `multisigNamespace` is `api.query.multisig`
(absent when the runtime has no multisig pallet) carrying the enumerated
`multisigs` entries, `blockTimestamp` the per-height timestamp side channel,
and `getMultisigConfig` the local registry lookup. -/
def fetchPendingProposals (multisigNamespace : Option (List MultisigEntry))
    (activeMultisigAccount : Option String) (blockTimestamp : Nat → Option Nat)
    (getMultisigConfig : String → Option MultisigConfig) : FetchProposalsResult :=
  match multisigNamespace with
  | none => ⟨[], some "Multisig pallet not available on this chain"⟩
  | some entries =>
    if entries.isEmpty then ⟨[], none⟩
    else
      let parsedEntries := multisigFirstPass entries activeMultisigAccount
      let parsedProposals := parsedEntries.map fun ent =>
        let config := getMultisigConfig ent.1
        { id := ent.1 ++ "-" ++ ent.2.1
          multisigAccount := ent.1
          callHash := ent.2.1
          operation := ⟨.Unknown, emptyParams⟩
          depositor := ent.2.2.depositor
          deposit := ent.2.2.deposit
          approvals := ent.2.2.approvals
          threshold := (config.map fun c => c.threshold).getD 0
          signatories := (config.map fun c => c.signatories.map fun s => s.1).getD []
          when := ent.2.2.when
          timestamp := blockTimestamp ent.2.2.when.height : PendingProposal }
      ⟨List.insertionSort (fun a b => b.when.height ≤ a.when.height) parsedProposals, none⟩

/-- The failure taxonomy of the backend client (`ApiErrorType`). -/
inductive ApiErrorType where
  | network
  | timeout
  | server
  | validation
  | not_found
  | unknown
deriving DecidableEq

/-- A classified backend failure (`ApiError`). -/
structure ApiError where
  type : ApiErrorType
  message : String
  status : Option Nat
deriving DecidableEq

/-- The thrown values `createApiError` distinguishes: a `TypeError` (with its
message), a `DOMException` named `AbortError`, any other `Error`, and a
non-`Error` value. -/
inductive JsError where
  | typeError (message : String)
  | domAbortError
  | otherError (message : String)
  | nonError
deriving DecidableEq

/-- `createApiError` from `src/lib/api/client.ts`. -/
def createApiError (error : JsError) (defaultType : ApiErrorType) : ApiError :=
  match error with
  | .typeError msg =>
    if strIncludes msg "fetch" then ⟨.network, "Unable to connect to server", none⟩
    else ⟨defaultType, msg, none⟩
  | .domAbortError => ⟨.timeout, "Request timed out", none⟩
  | .otherError msg => ⟨defaultType, msg, none⟩
  | .nonError => ⟨.unknown, "An unknown error occurred", none⟩

/-- `createHttpError` from `src/lib/api/client.ts`. -/
def createHttpError (status : Nat) (message : String) : ApiError :=
  if status = 404 then ⟨.not_found, message, some status⟩
  else if 400 ≤ status ∧ status < 500 then ⟨.validation, message, some status⟩
  else ⟨.server, message, some status⟩

/-- The `{success, data?, error?}` envelope every backend response carries;
the payload is kept abstract as a string. -/
structure ApiResponseEnvelope where
  success : Bool
  data : Option String
  error : Option String
deriving DecidableEq

/-- The tagged result every client primitive returns (`ApiResult<T>`). -/
inductive ApiResult where
  | ok (data : Option String)
  | err (error : ApiError)
deriving DecidableEq

/-- What one `fetch` round trip can come back with: a response (status plus
the outcome of `response.json()`, whose thrown parse error is the `error`
case of the `Except`), or a thrown value (network failure, timeout abort,
other). -/
inductive FetchOutcome where
  | response (status : Nat) (body : Except String ApiResponseEnvelope)
  | thrown (e : JsError)

/-- JavaScript `response.ok`: status in the 200–299 range. -/
def responseOk (status : Nat) : Bool := 200 ≤ status && status < 300

/-- The `request` helper from `src/lib/api/client.ts` that `get`, `post` and
`put` all delegate to, as a function of the fetch outcome. Both `catch`
branches call `createApiError` with the default classification `unknown`. -/
def request (outcome : FetchOutcome) : ApiResult :=
  match outcome with
  | .thrown e => .err (createApiError e .unknown)
  | .response status body =>
    match body with
    | .error parseMsg => .err (createApiError (.otherError parseMsg) .unknown)
    | .ok json =>
      if !(responseOk status) || !json.success then
        .err (createHttpError status
          ((jsOrString json.error (some ("Request failed with status " ++ toString status))).getD ""))
      else .ok json.data

/-- Connection states of the substrate client singleton. -/
inductive ConnectionState where
  | disconnected
  | connecting
  | connected
  | error
deriving DecidableEq

/-- The module-level mutable state of `src/lib/substrate/client.ts`:
the singleton `apiInstance` (handles numbered abstractly), the broadcast
connection state and last error, a counter of `WsProvider` constructions
(each one is an underlying connection attempt), and a supply of fresh handle
ids for `ApiPromise.create` results. -/
structure ClientState where
  apiInstance : Option Nat
  connectionState : ConnectionState
  connectionError : Option String
  providersCreated : Nat
  nextHandle : Nat
deriving DecidableEq

/-- What a `connect()` call is doing after its synchronous head has run:
returned at once with an existing handle, awaiting `isReady` of the already
stored instance, or awaiting its own `ApiPromise.create` (whose eventual
handle id is recorded). -/
inductive ConnectOutcome where
  | done (handle : Nat)
  | awaitingReady (handle : Nat)
  | awaitingCreate (handle : Nat)
deriving DecidableEq

/-- The synchronous head of `connect()` from `src/lib/substrate/client.ts`,
up to its first suspension: the connected-reuse check, the
`connecting && apiInstance` wait check, and otherwise the transition to
`connecting` followed by the `WsProvider` construction that starts an
underlying connection attempt. -/
def connectStart (s : ClientState) : ClientState × ConnectOutcome :=
  match s.apiInstance, s.connectionState with
  | some h, .connected => (s, .done h)
  | some h, .connecting => (s, .awaitingReady h)
  | _, _ =>
    ({ s with
        connectionState := .connecting
        connectionError := none
        providersCreated := s.providersCreated + 1
        nextHandle := s.nextHandle + 1 }, .awaitingCreate s.nextHandle)

/-- The resumption of `connect()` once its own `ApiPromise.create` (and
`isReady`) resolves with handle `h`: store the instance, mark `connected`,
and return the current `apiInstance`. -/
def connectResume (s : ClientState) (h : Nat) : ClientState × Nat :=
  let s1 := { s with apiInstance := some h, connectionState := .connected }
  (s1, s1.apiInstance.getD h)

/-- The client module state before any `connect()` call. -/
def initialClientState : ClientState := ⟨none, .disconnected, none, 0, 1⟩

/-- Hex rendering of one byte, lower case, two digits. -/
def byteToHex (b : Fin 256) : List Char :=
  [hexDigitLower (b.val / 16), hexDigitLower (b.val % 16)]

/-- Lower-case `0x`-prefixed hex rendering of a byte list (`u8aToHex`). -/
def hexEncode (l : List (Fin 256)) : String :=
  ⟨'0' :: 'x' :: (l.map byteToHex).flatten⟩

/-- Hex digit pairs back to bytes (`hexToU8a` after the prefix is stripped). -/
def hexDecodeCore : List Char → List (Fin 256)
  | a :: b :: rest =>
    ⟨(hexVal a * 16 + hexVal b) % 256, Nat.mod_lt _ (by omega)⟩ :: hexDecodeCore rest
  | _ => []

/-- Input to the digest helper: either a hex string or a raw byte array,
mirroring the two ways the source calls `blake2AsHex`. -/
inductive U8aLike where
  | hexStr (s : String)
  | bytes (l : List (Fin 256))

/-- Model of the `u8aToU8a` normalisation `blake2AsHex` applies to its input:
byte arrays pass through; a `0x`-prefixed string is hex-decoded; any other
string is treated as text (coarsely embedded byte-per-char here — the code
only ever hashes `0x`-prefixed strings or byte arrays). -/
def u8aToU8a : U8aLike → List (Fin 256)
  | .bytes l => l
  | .hexStr s =>
    if s.data.take 2 = ['0', 'x'] then hexDecodeCore (s.data.drop 2)
    else s.data.map fun c => ⟨c.toNat % 256, Nat.mod_lt _ (by omega)⟩

/-- Model of `blake2AsHex(data, 256)`: normalise the input to bytes, apply the
Blake2-256 digest, render as lower-case `0x` hex. The digest itself is an
external primitive and is a parameter throughout. -/
def blake2AsHex (digest : List (Fin 256) → List (Fin 256)) (input : U8aLike) : String :=
  hexEncode (digest (u8aToU8a input))

/-- `EncodedCall` from the call encoder. -/
structure EncodedCall where
  address : String
  encodedCall : String
  callHash : String
  palletName : String
  callName : String
deriving DecidableEq

/-- `encodeAddToWhitelist` from the call encoder, as a function of the raw
SCALE bytes `callMethodBytes` of the constructed `cladToken.addToWhitelist`
call (the source reads them off `call.method.toU8a()`, and `call.method.toHex()`
is their hex rendering). -/
def encodeAddToWhitelist (digest : List (Fin 256) → List (Fin 256))
    (callMethodBytes : List (Fin 256)) (address : String) : EncodedCall :=
  { address := address
    encodedCall := hexEncode callMethodBytes
    callHash := blake2AsHex digest (.bytes callMethodBytes)
    palletName := "CladToken"
    callName := "addToWhitelist" }

/-- `verifyCallHash` from the call encoder: recompute the digest over the
hex-encoded call and compare case-insensitively. -/
def verifyCallHash (digest : List (Fin 256) → List (Fin 256))
    (encodedCall expectedHash : String) : Bool :=
  jsToLowerCase (blake2AsHex digest (.hexStr encodedCall)) == jsToLowerCase expectedHash

/-- Classification extracted from a client result (`none` for success). -/
def apiResultErrType : ApiResult → Option ApiErrorType
  | .ok _ => none
  | .err e => some e.type

/-- A concrete batch of 501 events from one block, used to exercise the cap. -/
def capWitnessEvents : List TokenEvent :=
  (List.range 501).map fun i => ⟨toString i, "Minted", 5, "0xcap", none, []⟩

/-- Prepend a decoded character to the string component of a parse result. -/
def mapConsFst (c : Char) (o : Option (List Char × List Char)) : Option (List Char × List Char) :=
  o.map fun p => (c :: p.1, p.2)

/-- Reference decoder for a JSON string literal body: consumes characters up
to the closing quote, undoing the escapes `escapeChar` can produce, and
returns the decoded text together with the input remaining after the closing
quote. Only used in proofs, to establish that the rendering is injective. -/
def parseJsonStr : List Char → Option (List Char × List Char)
  | [] => none
  | c :: rest =>
    if c = Char.ofNat 34 then some ([], rest)
    else if c = Char.ofNat 92 then
      match rest with
      | [] => none
      | e :: rest2 =>
        if e = Char.ofNat 34 then mapConsFst (Char.ofNat 34) (parseJsonStr rest2)
        else if e = Char.ofNat 92 then mapConsFst (Char.ofNat 92) (parseJsonStr rest2)
        else if e = 'b' then mapConsFst (Char.ofNat 8) (parseJsonStr rest2)
        else if e = 't' then mapConsFst (Char.ofNat 9) (parseJsonStr rest2)
        else if e = 'n' then mapConsFst (Char.ofNat 10) (parseJsonStr rest2)
        else if e = 'f' then mapConsFst (Char.ofNat 12) (parseJsonStr rest2)
        else if e = 'r' then mapConsFst (Char.ofNat 13) (parseJsonStr rest2)
        else if e = 'u' then
          match rest2 with
          | a :: b :: c2 :: d :: rest3 =>
            mapConsFst
              (Char.ofNat (hexVal a * 4096 + hexVal b * 256 + hexVal c2 * 16 + hexVal d))
              (parseJsonStr rest3)
          | _ => none
        else none
    else mapConsFst c (parseJsonStr rest)

/-- A concrete stored event whose persisted id is not the content-derived one
(as left behind by an older build of the page); used to exhibit the migration
step of `loadEventsFromStorage`. -/
def staleIdEvent : TokenEvent :=
  ⟨"stale", "Minted", 1, "0xaaa", none, [("to", "5Grw"), ("amount", "1000000")]⟩

/-- C4: persisting under genesis hash G1 and loading while connected to a
chain with a different genesis hash G2 yields the empty list and removes both
the event-log entry and the genesis entry from local storage. (A genesis hash
is a nonempty `0x`-prefixed string; the truthiness guard in the source skips
the wipe only for the empty string, which is not a genesis hash.) -/
theorem loadEventsFromStorage_chain_switch (st : EventStorage) (G1 G2 : String)
    (hstored : st.genesisEntry = some G1) (hne : G1 ≠ "") (hdiff : G1 ≠ G2) :
    loadEventsFromStorage G2 st = ([], ⟨none, none⟩) := by
  unfold loadEventsFromStorage
  rw [hstored]
  simp [hne, hdiff]

/-- Witness for `loadEventsFromStorage_chain_switch` at a concrete storage
state and genesis pair. -/
theorem loadEventsFromStorage_chain_switch_witness :
    ("0xaaa" : String) ≠ "" ∧ ("0xaaa" : String) ≠ "0xbbb" ∧
      loadEventsFromStorage "0xbbb" ⟨some (.parsed [staleIdEvent]), some "0xaaa"⟩ =
        ([], ⟨none, none⟩) :=
  ⟨by decide, by decide,
    loadEventsFromStorage_chain_switch ⟨some (.parsed [staleIdEvent]), some "0xaaa"⟩
      "0xaaa" "0xbbb" rfl (by decide) (by decide)⟩

/-- C10 (counterexample): with the genesis entry absent and an event log
present, loading does not return the stored events unchanged — the stored id
`stale` is replaced by the content-derived id during the migration map. -/
theorem loadEventsFromStorage_not_unchanged :
    (loadEventsFromStorage "0xgenesis" ⟨some (.parsed [staleIdEvent]), none⟩).1 ≠
      [staleIdEvent] := by
  decide

/-- C10 (amended): if the persisted genesis entry is absent while a parseable
event log is present, loading returns the stored events with each id
recomputed from (blockHash, type, payload) — otherwise unchanged — and leaves
local storage untouched, regardless of the current genesis hash. -/
theorem loadEventsFromStorage_no_genesis (st : EventStorage) (G : String)
    (evs : List TokenEvent) (h1 : st.genesisEntry = none)
    (h2 : st.eventsEntry = some (.parsed evs)) :
    loadEventsFromStorage G st = (evs.map migrateEvent, st) := by
  unfold loadEventsFromStorage readStoredEvents
  rw [h1, h2]

/-- Witness for `loadEventsFromStorage_no_genesis` at a concrete storage
state. -/
theorem loadEventsFromStorage_no_genesis_witness :
    loadEventsFromStorage "0xgenesis" ⟨some (.parsed [staleIdEvent]), none⟩ =
      ([migrateEvent staleIdEvent], ⟨some (.parsed [staleIdEvent]), none⟩) :=
  loadEventsFromStorage_no_genesis ⟨some (.parsed [staleIdEvent]), none⟩ "0xgenesis"
    [staleIdEvent] rfl rfl

/-- C2: a second `connect()` entering while the first is still awaiting
`ApiPromise.create` (state `connecting`, `apiInstance` still null) does not
await the in-flight attempt: it constructs a second `WsProvider` — a second
underlying connection attempt — and the two callers resolve to distinct
handles. This contradicts both the claim and the source's own comment on the
guard (`If currently connecting, wait for it`). -/
theorem connect_second_attempt_while_connecting :
    (connectStart initialClientState).2 = .awaitingCreate 1 ∧
    (connectStart initialClientState).1.connectionState = .connecting ∧
    (connectStart (connectStart initialClientState).1).2 = .awaitingCreate 2 ∧
    (connectResume
      (connectResume (connectStart (connectStart initialClientState).1).1 1).1
      2).1.providersCreated = 2 ∧
    (connectResume (connectStart (connectStart initialClientState).1).1 1).2 ≠
      (connectResume
        (connectResume (connectStart (connectStart initialClientState).1).1 1).1 2).2 := by
  decide

/-- C6: the call decoder never throws past its boundary — a payload the
metadata cannot parse yields `success = false` with the error detail, while a
structurally valid call whose pallet or call name is outside the `cladToken`
lookup table yields `success = true`, operation kind `Unknown`, and the
description `<pallet>.<call>`. -/
theorem decodeCall_fallback :
    (∀ msg, decodeCall (.error msg) = ⟨false, none, none, none, none, some msg⟩) ∧
    (∀ call : ParsedCall,
      call.sectionName ≠ "cladToken" ∨ CLAD_TOKEN_CALL_MAP.lookup call.methodName = none →
      decodeCall (.ok call) =
        ⟨true, some call.sectionName, some call.methodName, some ⟨.Unknown, emptyParams⟩,
          some (call.sectionName ++ "." ++ call.methodName), none⟩) := by
  constructor
  · intro msg; rfl
  · intro call h
    have hop : parseTokenOperation call.sectionName call.methodName call.args =
        ⟨.Unknown, emptyParams⟩ := by
      unfold parseTokenOperation
      rcases h with h | h
      · simp [h]
      · simp [h]
    simp [decodeCall, hop, generateDescription]

/-- Witness for `decodeCall_fallback`: a parse failure, and a structurally
valid call from a foreign pallet. -/
theorem decodeCall_fallback_witness :
    decodeCall (.error "Unable to decode") =
      ⟨false, none, none, none, none, some "Unable to decode"⟩ ∧
    decodeCall (.ok ⟨"balances", "transfer", ⟨[], []⟩⟩) =
      ⟨true, some "balances", some "transfer", some ⟨.Unknown, emptyParams⟩,
        some "balances.transfer", none⟩ :=
  ⟨decodeCall_fallback.1 "Unable to decode",
    decodeCall_fallback.2 ⟨"balances", "transfer", ⟨[], []⟩⟩ (Or.inl (by decide))⟩

/-- C7: when the runtime has no multisig storage namespace,
`fetchPendingProposals` reports the explicit unsupported-chain error (not an
empty success); when the namespace exists but holds no entries, it reports a
successful empty list with no error. -/
theorem fetchPendingProposals_unsupported_vs_empty (activeAcct : Option String)
    (blockTimestamp : Nat → Option Nat) (getConfig : String → Option MultisigConfig) :
    fetchPendingProposals none activeAcct blockTimestamp getConfig =
      ⟨[], some "Multisig pallet not available on this chain"⟩ ∧
    fetchPendingProposals (some []) activeAcct blockTimestamp getConfig = ⟨[], none⟩ := by
  exact ⟨rfl, rfl⟩

/-- C8: the backend client's request primitive always yields a tagged
success/failure result, and classifies failures as: HTTP 404 `not_found`,
other 4xx `validation`, 5xx `server`, an aborted (timed-out) request
`timeout`, a thrown fetch network `TypeError` `network`. -/
theorem request_error_classification :
    (∀ outcome, (∃ d, request outcome = .ok d) ∨ ∃ e, request outcome = .err e) ∧
    (∀ env, apiResultErrType (request (.response 404 (.ok env))) = some .not_found) ∧
    (∀ status env, 400 ≤ status → status < 500 → status ≠ 404 →
      apiResultErrType (request (.response status (.ok env))) = some .validation) ∧
    (∀ status env, 500 ≤ status →
      apiResultErrType (request (.response status (.ok env))) = some .server) ∧
    apiResultErrType (request (.thrown .domAbortError)) = some .timeout ∧
    (∀ msg, strIncludes msg "fetch" = true →
      apiResultErrType (request (.thrown (.typeError msg))) = some .network) := by
  refine ⟨?_, ?_, ?_, ?_, ?_, ?_⟩
  · intro outcome
    cases h : request outcome with
    | ok d => exact Or.inl ⟨d, rfl⟩
    | err e => exact Or.inr ⟨e, rfl⟩
  · intro env
    have hok : responseOk 404 = false := by decide
    simp [request, hok, createHttpError, apiResultErrType]
  · intro status env h4 h5 hne
    have hok : responseOk status = false := by
      simp [responseOk]; omega
    have h404 : status = 404 ↔ False := by simp [hne]
    simp [request, hok, createHttpError, hne, h4, h5, apiResultErrType]
  · intro status env h5
    have hok : responseOk status = false := by
      simp [responseOk]; omega
    have hne : status ≠ 404 := by omega
    have hlt : ¬ (400 ≤ status ∧ status < 500) := by omega
    simp [request, hok, createHttpError, hne, hlt, apiResultErrType]
  · rfl
  · intro msg h
    simp [request, createApiError, h, apiResultErrType]

/-- Witness for `request_error_classification` at concrete statuses and a
concrete fetch `TypeError`. -/
theorem request_error_classification_witness :
    apiResultErrType (request (.response 404 (.ok ⟨false, none, none⟩))) = some .not_found ∧
    apiResultErrType (request (.response 422 (.ok ⟨false, none, none⟩))) = some .validation ∧
    apiResultErrType (request (.response 503 (.ok ⟨false, none, none⟩))) = some .server ∧
    apiResultErrType (request (.thrown .domAbortError)) = some .timeout ∧
    apiResultErrType (request (.thrown (.typeError "Failed to fetch"))) = some .network :=
  ⟨request_error_classification.2.1 ⟨false, none, none⟩,
    request_error_classification.2.2.1 422 ⟨false, none, none⟩ (by decide) (by decide) (by decide),
    request_error_classification.2.2.2.1 503 ⟨false, none, none⟩ (by decide),
    request_error_classification.2.2.2.2.1,
    request_error_classification.2.2.2.2.2 "Failed to fetch" (by decide)⟩

/-- For a precision of at most 22, the JavaScript divisor `BigInt(10 ** d)` is
exactly `10 ^ d`. -/
theorem jsPow10_eq_pow (d : Nat) (h : d ≤ 22) : jsPow10 d = 10 ^ d := by
  have hall : ∀ e, e < 23 → jsPow10 e = 10 ^ e := by decide
  exact hall d (by omega)

/-- C5 (counterexample): at precision 23 the divisor `BigInt(10 ** 23)` is no
longer exact (doubles have 53-bit mantissas), so `formatBalance` deviates from
the claimed integer-part/fraction rendering: the claim requires `"1.00"` for
the amount `10 ^ 23` at 23 decimals, but the code yields a different string. -/
theorem formatBalance_inexact_at_23 :
    formatBalanceSpec (10 ^ 23) 23 = "1.00" ∧
      formatBalance (10 ^ 23) 23 ≠ formatBalanceSpec (10 ^ 23) 23 := by
  constructor
  · decide
  · decide

/-- C5 (amended): for every non-negative amount and every decimal precision up
to 22 (where the JavaScript divisor `10 ** decimals` is exact — all precisions
the dashboard uses are 6, 12 or 18), `formatBalance` renders exactly the
claimed shape: integer part with thousands separators, a dot, fractional
digits with trailing zeros trimmed but at least two kept; in particular
1000000 at 6 decimals gives `"1.00"` and 500000000000000000 at 18 decimals
gives `"0.50"`. -/
theorem formatBalance_matches_spec :
    (∀ rawBalance decimals, decimals ≤ 22 →
      formatBalance rawBalance decimals = formatBalanceSpec rawBalance decimals) ∧
    formatBalance 1000000 6 = "1.00" ∧
    formatBalance 500000000000000000 18 = "0.50" := by
  refine ⟨?_, by decide, by decide⟩
  intro rawBalance decimals h
  unfold formatBalance formatBalanceSpec
  rw [jsPow10_eq_pow decimals h]

/-- Witness for `formatBalance_matches_spec` at a concrete amount and
precision. -/
theorem formatBalance_matches_spec_witness :
    formatBalance 1234567 6 = formatBalanceSpec 1234567 6 ∧ formatBalance 1000000 6 = "1.00" :=
  ⟨formatBalance_matches_spec.1 1234567 6 (by decide), formatBalance_matches_spec.2.1⟩

/-- In a pairwise block-number-descending list, everything kept by `take n`
dominates everything dropped by `drop n`. -/
theorem pairwise_take_drop {α : Type} {r : α → α → Prop} {l : List α} (hs : l.Pairwise r)
    (n : Nat) : ∀ a ∈ l.take n, ∀ b ∈ l.drop n, r a b := by
  have h2 : (l.take n ++ l.drop n).Pairwise r := by
    rw [List.take_append_drop]; exact hs
  exact (List.pairwise_append.mp h2).2.2

/-- C1: whenever a merge of newly observed events with the existing log
produces more than 500 (distinct) events, the stored log afterwards has
exactly 500 entries and they are the 500 with the highest block numbers among
the merged input. The backfill path (`fetchRecentEvents`) needs no side
conditions because it sorts; the live path (`subscribeNewHeads` handler) is
stated under the invariants the subscription maintains: the new events all
come from one (new) block whose number is at least every stored block number,
and the stored log is already in descending block-number order. -/
theorem eventLog_cap_enforcement (newEvents events : List TokenEvent) :
    (500 < (fetchMergedInput newEvents events).length →
      (fetchRecentEventsMerge newEvents events).length = 500 ∧
      ∃ dropped,
        (fetchRecentEventsMerge newEvents events ++ dropped).Perm
            (fetchMergedInput newEvents events) ∧
          ∀ a ∈ fetchRecentEventsMerge newEvents events, ∀ b ∈ dropped,
            b.blockNumber ≤ a.blockNumber) ∧
    ((∀ e1 ∈ newEvents, ∀ e2 ∈ newEvents, e1.blockNumber = e2.blockNumber) →
      (∀ e ∈ newEvents, ∀ o ∈ events, o.blockNumber ≤ e.blockNumber) →
      events.Pairwise evGe → 500 < (newEvents ++ events).length →
      (startEventSubscriptionMerge newEvents events).length = 500 ∧
      ∃ dropped,
        startEventSubscriptionMerge newEvents events ++ dropped = newEvents ++ events ∧
          ∀ a ∈ startEventSubscriptionMerge newEvents events, ∀ b ∈ dropped,
            b.blockNumber ≤ a.blockNumber) := by
  constructor
  · intro hlen
    have hperm := List.perm_insertionSort evGe (fetchMergedInput newEvents events)
    have hsorted := List.sorted_insertionSort evGe (fetchMergedInput newEvents events)
    have hlen2 : (List.insertionSort evGe (fetchMergedInput newEvents events)).length =
        (fetchMergedInput newEvents events).length := hperm.length_eq
    refine ⟨?_, List.drop 500 (List.insertionSort evGe (fetchMergedInput newEvents events)),
      ?_, ?_⟩
    · unfold fetchRecentEventsMerge
      rw [List.length_take, hlen2]
      omega
    · unfold fetchRecentEventsMerge
      rw [List.take_append_drop]
      exact hperm
    · exact pairwise_take_drop hsorted 500
  · intro hsame hge hsorted hlen
    have hall : (newEvents ++ events).Pairwise evGe := by
      rw [List.pairwise_append]
      refine ⟨List.pairwise_of_forall_mem_list ?_, hsorted, ?_⟩
      · intro a ha b hb
        exact Nat.le_of_eq (hsame b hb a ha)
      · intro a ha b hb
        exact hge a ha b hb
    refine ⟨?_, List.drop 500 (newEvents ++ events), ?_, ?_⟩
    · unfold startEventSubscriptionMerge
      rw [List.length_take]
      omega
    · exact List.take_append_drop 500 (newEvents ++ events)
    · exact pairwise_take_drop hall 500

/-- Witness for `eventLog_cap_enforcement`: merging 501 events into an empty
log trips the cap on both paths. -/
theorem eventLog_cap_enforcement_witness :
    (fetchRecentEventsMerge capWitnessEvents []).length = 500 ∧
      (startEventSubscriptionMerge capWitnessEvents []).length = 500 := by
  have hlen : (fetchMergedInput capWitnessEvents []).length = 501 := by
    simp [fetchMergedInput, capWitnessEvents]
  have hlen2 : (capWitnessEvents ++ ([] : List TokenEvent)).length = 501 := by
    simp [capWitnessEvents]
  have hsame : ∀ e1 ∈ capWitnessEvents, ∀ e2 ∈ capWitnessEvents,
      e1.blockNumber = e2.blockNumber := by
    intro e1 h1 e2 h2
    simp only [capWitnessEvents, List.mem_map] at h1 h2
    obtain ⟨i, _, rfl⟩ := h1
    obtain ⟨j, _, rfl⟩ := h2
    rfl
  have hge : ∀ e ∈ capWitnessEvents, ∀ o ∈ ([] : List TokenEvent),
      o.blockNumber ≤ e.blockNumber := by
    intro e _ o ho
    simp at ho
  exact ⟨((eventLog_cap_enforcement capWitnessEvents []).1 (by omega)).1,
    ((eventLog_cap_enforcement capWitnessEvents []).2 hsame hge List.Pairwise.nil
      (by omega)).1⟩

/-- Hex digits round-trip through their character rendering. -/
theorem hexVal_hexDigitLower (n : Nat) (h : n < 16) : hexVal (hexDigitLower n) = n := by
  have hall : ∀ m, m < 16 → hexVal (hexDigitLower m) = m := by decide
  exact hall n h

/-- Decoding the hex rendering of a byte list gives the byte list back. -/
theorem hexDecodeCore_encode (l : List (Fin 256)) :
    hexDecodeCore ((l.map byteToHex).flatten) = l := by
  induction l with
  | nil => rfl
  | cons b rest ih =>
    have hdiv : b.val / 16 < 16 := by omega
    have hmod : b.val % 16 < 16 := by omega
    simp only [List.map_cons, List.flatten_cons, byteToHex, List.cons_append, List.nil_append,
      hexDecodeCore, ih]
    congr 1
    apply Fin.ext
    simp only [hexVal_hexDigitLower _ hdiv, hexVal_hexDigitLower _ hmod]
    omega

/-- Byte-array inputs pass through the `u8aToU8a` normalisation unchanged. -/
theorem u8aToU8a_bytes (l : List (Fin 256)) : u8aToU8a (.bytes l) = l := rfl

/-- The `u8aToU8a` normalisation undoes `hexEncode`. -/
theorem u8aToU8a_hexEncode (l : List (Fin 256)) : u8aToU8a (.hexStr (hexEncode l)) = l := by
  have hc : List.take 2 ('0' :: 'x' :: (List.map byteToHex l).flatten) = ['0', 'x'] := rfl
  simp only [u8aToU8a, hexEncode]
  rw [if_pos hc]
  exact hexDecodeCore_encode l

/-- Hex renderings contain no upper-case letters, so lower-casing them is the
identity. -/
theorem jsToLowerCase_hexEncode (l : List (Fin 256)) :
    jsToLowerCase (hexEncode l) = hexEncode l := by
  have hdigit : ∀ m, m < 16 → asciiLowerChar (hexDigitLower m) = hexDigitLower m := by decide
  have hflat : ∀ bs : List (Fin 256),
      ((bs.map byteToHex).flatten).map asciiLowerChar = (bs.map byteToHex).flatten := by
    intro bs
    induction bs with
    | nil => rfl
    | cons b rest ih =>
      have hdiv : b.val / 16 < 16 := by omega
      have hmod : b.val % 16 < 16 := by omega
      simp only [List.map_cons, List.flatten_cons, byteToHex, List.cons_append, List.nil_append,
        List.map_append, ih, hdigit _ hdiv, hdigit _ hmod]
  have h0 : asciiLowerChar '0' = '0' := by decide
  have hx : asciiLowerChar 'x' = 'x' := by decide
  apply String.ext
  simp only [jsToLowerCase, hexEncode, List.map_cons, hflat, h0, hx]

/-- `hexEncode` is injective. -/
theorem hexEncode_injective {l1 l2 : List (Fin 256)} (h : hexEncode l1 = hexEncode l2) :
    l1 = l2 := by
  have hdata : ('0' :: 'x' :: (l1.map byteToHex).flatten) =
      ('0' :: 'x' :: (l2.map byteToHex).flatten) := congrArg String.data h
  have hflat : (l1.map byteToHex).flatten = (l2.map byteToHex).flatten := by
    injection hdata with _ h2
    injection h2
  calc l1 = hexDecodeCore ((l1.map byteToHex).flatten) := (hexDecodeCore_encode l1).symm
    _ = hexDecodeCore ((l2.map byteToHex).flatten) := by rw [hflat]
    _ = l2 := hexDecodeCore_encode l2

/-- C9: verification succeeds on every payload against its own digest, the
comparison only depends on the lower-cased hashes (case-insensitive), the
digest `verifyCallHash` computes over the hex-encoded payload is the digest
`encodeAddToWhitelist` computes over the raw call bytes, and — as long as the
digest does not collide on the mutated pair — flipping a single byte of the
payload makes verification fail. The Blake2-256 primitive itself is external
to the repository and is the abstract `digest` parameter. -/
theorem verifyCallHash_verification (digest : List (Fin 256) → List (Fin 256)) :
    (∀ payload : String,
      verifyCallHash digest payload (blake2AsHex digest (.hexStr payload)) = true) ∧
    (∀ payload expected1 expected2, jsToLowerCase expected1 = jsToLowerCase expected2 →
      verifyCallHash digest payload expected1 = verifyCallHash digest payload expected2) ∧
    (∀ (callBytes : List (Fin 256)) (address : String),
      blake2AsHex digest (.hexStr (hexEncode callBytes)) =
        (encodeAddToWhitelist digest callBytes address).callHash) ∧
    (∀ (callBytes : List (Fin 256)) (i : Nat) (v : Fin 256) (hi : i < callBytes.length),
      v ≠ callBytes.get ⟨i, hi⟩ →
      digest (callBytes.set i v) ≠ digest callBytes →
      verifyCallHash digest (hexEncode (callBytes.set i v))
        (blake2AsHex digest (.bytes callBytes)) = false) := by
  refine ⟨?_, ?_, ?_, ?_⟩
  · intro payload
    simp [verifyCallHash]
  · intro payload expected1 expected2 h
    simp [verifyCallHash, h]
  · intro callBytes address
    simp only [blake2AsHex, u8aToU8a_hexEncode, encodeAddToWhitelist, u8aToU8a_bytes]
  · intro callBytes i v hi _ hcol
    simp only [verifyCallHash, blake2AsHex, u8aToU8a_hexEncode, u8aToU8a_bytes,
      jsToLowerCase_hexEncode]
    rw [beq_eq_false_iff_ne]
    intro h
    exact hcol (hexEncode_injective h)

/-- Witness for `verifyCallHash_verification`: the identity digest (trivially
collision-free) on a one-byte payload and its one-byte mutation. -/
theorem verifyCallHash_verification_witness :
    verifyCallHash (fun l => l) "0x00" (blake2AsHex (fun l => l) (.hexStr "0x00")) = true ∧
    jsToLowerCase "0XAB" = jsToLowerCase "0xab" ∧
    verifyCallHash (fun l => l) "0x00" "0XAB" = verifyCallHash (fun l => l) "0x00" "0xab" ∧
    blake2AsHex (fun l => l) (.hexStr (hexEncode [(0 : Fin 256)])) =
      (encodeAddToWhitelist (fun l => l) [(0 : Fin 256)] "5Grw").callHash ∧
    verifyCallHash (fun l => l) (hexEncode (List.set [(0 : Fin 256)] 0 1))
      (blake2AsHex (fun l => l) (.bytes [(0 : Fin 256)])) = false :=
  ⟨(verifyCallHash_verification (fun l => l)).1 "0x00",
    by decide,
    (verifyCallHash_verification (fun l => l)).2.1 "0x00" "0XAB" "0xab" (by decide),
    (verifyCallHash_verification (fun l => l)).2.2.1 [(0 : Fin 256)] "5Grw",
    (verifyCallHash_verification (fun l => l)).2.2.2 [(0 : Fin 256)] 0 1 (by decide)
      (by decide) (by decide)⟩

/-- Splitting at a separator character is unambiguous when neither left part
contains the separator. -/
theorem sep_split (sep : Char) : ∀ (a c b d : List Char),
    (∀ x ∈ a, x ≠ sep) → (∀ x ∈ c, x ≠ sep) →
    a ++ sep :: b = c ++ sep :: d → a = c ∧ b = d := by
  intro a
  induction a with
  | nil =>
    intro c b d _ hc h
    cases c with
    | nil =>
      simp only [List.nil_append] at h
      injection h with _ h2
      exact ⟨rfl, h2⟩
    | cons y ys =>
      exfalso
      simp only [List.nil_append, List.cons_append] at h
      injection h with h1 _
      exact hc y (by simp) h1.symm
  | cons x xs ih =>
    intro c b d ha hc h
    cases c with
    | nil =>
      exfalso
      simp only [List.cons_append, List.nil_append] at h
      injection h with h1 _
      exact ha x (by simp) h1
    | cons y ys =>
      simp only [List.cons_append] at h
      injection h with h1 h2
      obtain ⟨hA, hB⟩ := ih ys b d (fun z hz => ha z (by simp [hz]))
        (fun z hz => hc z (by simp [hz])) h2
      exact ⟨by rw [h1, hA], hB⟩

/-- The decoder undoes the renderer: parsing the escaped text followed by the
closing quote recovers the original text and the trailing input. -/
theorem parseJsonStr_render (s : List Char) :
    ∀ tail, parseJsonStr ((s.map escapeChar).flatten ++ Char.ofNat 34 :: tail) =
      some (s, tail) := by
  induction s with
  | nil =>
    intro tail
    unfold parseJsonStr
    simp
  | cons c cs ih =>
    intro tail
    simp only [List.map_cons, List.flatten_cons, List.append_assoc]
    by_cases h1 : c = Char.ofNat 34
    · subst h1
      simp +decide only [escapeChar, if_pos, List.cons_append, List.nil_append]
      unfold parseJsonStr
      simp +decide [mapConsFst, ih]
    · by_cases h2 : c = Char.ofNat 92
      · subst h2
        simp +decide [escapeChar]
        unfold parseJsonStr
        simp +decide [mapConsFst, ih]
      · by_cases h3 : c = Char.ofNat 8
        · subst h3
          simp +decide [escapeChar]
          unfold parseJsonStr
          simp +decide [mapConsFst, ih]
        · by_cases h4 : c = Char.ofNat 9
          · subst h4
            simp +decide [escapeChar]
            unfold parseJsonStr
            simp +decide [mapConsFst, ih]
          · by_cases h5 : c = Char.ofNat 10
            · subst h5
              simp +decide [escapeChar]
              unfold parseJsonStr
              simp +decide [mapConsFst, ih]
            · by_cases h6 : c = Char.ofNat 12
              · subst h6
                simp +decide [escapeChar]
                unfold parseJsonStr
                simp +decide [mapConsFst, ih]
              · by_cases h7 : c = Char.ofNat 13
                · subst h7
                  simp +decide [escapeChar]
                  unfold parseJsonStr
                  simp +decide [mapConsFst, ih]
                · by_cases h8 : c.toNat < 32
                  · have hdiv : c.toNat / 16 < 16 := by omega
                    have hmod : c.toNat % 16 < 16 := by omega
                    have e1 : hexVal (hexDigitLower (c.toNat / 16)) = c.toNat / 16 :=
                      hexVal_hexDigitLower _ hdiv
                    have e2 : hexVal (hexDigitLower (c.toNat % 16)) = c.toNat % 16 :=
                      hexVal_hexDigitLower _ hmod
                    have hz : hexVal '0' = 0 := by decide
                    have hsum : hexVal '0' * 4096 + hexVal '0' * 256 +
                        hexVal (hexDigitLower (c.toNat / 16)) * 16 +
                        hexVal (hexDigitLower (c.toNat % 16)) = c.toNat := by
                      rw [e1, e2, hz]; omega
                    simp only [escapeChar, if_neg h1, if_neg h2, if_neg h3, if_neg h4,
                      if_neg h5, if_neg h6, if_neg h7, if_pos h8, List.cons_append,
                      List.nil_append]
                    unfold parseJsonStr
                    simp +decide [mapConsFst, hsum, Char.ofNat_toNat, ih]
                  · simp only [escapeChar, if_neg h1, if_neg h2, if_neg h3, if_neg h4,
                      if_neg h5, if_neg h6, if_neg h7, if_neg h8, List.cons_append,
                      List.nil_append]
                    unfold parseJsonStr
                    simp [h1, h2, mapConsFst, ih]

/-- A rendered JSON string literal determines its content and whatever
follows it. -/
theorem renderQuoted_append_inj {s1 s2 t1 t2 : List Char}
    (h : renderQuoted s1 ++ t1 = renderQuoted s2 ++ t2) : s1 = s2 ∧ t1 = t2 := by
  have h1 : Char.ofNat 34 :: ((s1.map escapeChar).flatten ++ Char.ofNat 34 :: t1) =
      Char.ofNat 34 :: ((s2.map escapeChar).flatten ++ Char.ofNat 34 :: t2) := by
    simpa [renderQuoted, List.append_assoc] using h
  have h2 : (s1.map escapeChar).flatten ++ Char.ofNat 34 :: t1 =
      (s2.map escapeChar).flatten ++ Char.ofNat 34 :: t2 := by
    injection h1
  have p1 := parseJsonStr_render s1 t1
  rw [h2, parseJsonStr_render s2 t2] at p1
  injection p1 with p2
  exact ⟨(congrArg Prod.fst p2).symm, (congrArg Prod.snd p2).symm⟩

/-- Uniform head shape for the rendering of a nonempty pair list. -/
theorem renderPairs_cons (k v : String) (rest : List (String × String)) :
    renderPairs ((k, v) :: rest) =
      renderQuoted k.data ++ ':' :: (renderQuoted v.data ++
        (match rest with | [] => [] | _ :: _ => ',' :: renderPairs rest)) := by
  cases rest with
  | nil => simp [renderPairs]
  | cons p r => simp [renderPairs]

/-- The comma-separated member rendering, closed with the final brace, is
injective on pair lists. -/
theorem renderPairs_close_inj : ∀ d1 d2 : List (String × String),
    renderPairs d1 ++ [Char.ofNat 125] = renderPairs d2 ++ [Char.ofNat 125] → d1 = d2 := by
  intro d1
  induction d1 with
  | nil =>
    intro d2 h
    cases d2 with
    | nil => rfl
    | cons q rest2 =>
      exfalso
      obtain ⟨k2, v2⟩ := q
      rw [renderPairs_cons] at h
      simp only [renderPairs, renderQuoted, List.nil_append, List.cons_append,
        List.append_assoc] at h
      injection h with hhead _
      exact absurd hhead (by decide)
  | cons p rest ih =>
    obtain ⟨k, v⟩ := p
    intro d2 h
    cases d2 with
    | nil =>
      exfalso
      rw [renderPairs_cons] at h
      simp only [renderPairs, renderQuoted, List.nil_append, List.cons_append,
        List.append_assoc] at h
      injection h with hhead _
      exact absurd hhead (by decide)
    | cons q rest2 =>
      obtain ⟨k2, v2⟩ := q
      rw [renderPairs_cons, renderPairs_cons] at h
      generalize hM1 : (match rest with
        | ([] : List (String × String)) => ([] : List Char)
        | _ :: _ => ',' :: renderPairs rest) = M1 at h
      generalize hM2 : (match rest2 with
        | ([] : List (String × String)) => ([] : List Char)
        | _ :: _ => ',' :: renderPairs rest2) = M2 at h
      rw [List.append_assoc, List.append_assoc] at h
      obtain ⟨hk, h2⟩ := renderQuoted_append_inj h
      have h3 : renderQuoted v.data ++ (M1 ++ [Char.ofNat 125]) =
          renderQuoted v2.data ++ (M2 ++ [Char.ofNat 125]) := by
        have h2c := h2
        simp only [List.cons_append, List.append_assoc, List.cons.injEq, true_and] at h2c
        exact h2c
      obtain ⟨hv, h4⟩ := renderQuoted_append_inj h3
      have hks : k = k2 := String.ext hk
      have hvs : v = v2 := String.ext hv
      subst hks
      subst hvs
      subst hM1
      subst hM2
      cases rest with
      | nil =>
        cases rest2 with
        | nil => rfl
        | cons q2 r2 =>
          exfalso
          simp only [List.nil_append, List.cons_append] at h4
          injection h4 with hhead _
          exact absurd hhead (by decide)
      | cons p2 r1 =>
        cases rest2 with
        | nil =>
          exfalso
          simp only [List.nil_append, List.cons_append] at h4
          injection h4 with hhead _
          exact absurd hhead (by decide)
        | cons q2 r2 =>
          simp only [List.cons_append] at h4
          injection h4 with _ h5
          rw [ih (q2 :: r2) h5]

/-- `JSON.stringify` on flat string records is injective. -/
theorem jsonStringifyFlat_inj {d1 d2 : List (String × String)}
    (h : jsonStringifyFlat d1 = jsonStringifyFlat d2) : d1 = d2 := by
  have hdata := congrArg String.data h
  simp only [jsonStringifyFlat] at hdata
  injection hdata with hhead h2
  exact renderPairs_close_inj d1 d2 h2

/-- Character-level decomposition of a generated event id. -/
theorem generateEventId_data (h t : String) (d : List (String × String)) :
    (generateEventId h t d).data =
      h.data ++ '-' :: (t.data ++ '-' :: (jsonStringifyFlat d).data) := by
  have hdash : ("-" : String).data = ['-'] := rfl
  simp [generateEventId, String.data_append, hdash, List.append_assoc]

/-- C3 (counterexample): over arbitrary strings the id derivation is not
injective — a hyphen inside the block hash can be re-read as the separator, so
two triples that differ in block hash and kind share one id. (Real block
hashes are `0x`-prefixed hex and contain no hyphen, which is what the amended
statement requires.) -/
theorem generateEventId_hyphen_collision :
    generateEventId "0xa-Minted" "x" [] = generateEventId "0xa" "Minted-x" [] ∧
      ("0xa-Minted" : String) ≠ "0xa" := by
  constructor
  · decide
  · decide

/-- C3 (amended): the id derivation is deterministic — it is a pure function,
so identical inputs always give identical ids — and on triples whose block
hash and kind contain no hyphen (true of all `0x`-hex block hashes and all
six event kind names), two triples differing in block hash, kind, or any
payload field yield different ids. -/
theorem generateEventId_deterministic_injective :
    (∀ blockHash type data, generateEventId blockHash type data =
      generateEventId blockHash type data) ∧
    (∀ (h1 t1 : String) (d1 : List (String × String)) (h2 t2 : String)
      (d2 : List (String × String)),
      (∀ ch ∈ h1.data, ch ≠ '-') → (∀ ch ∈ h2.data, ch ≠ '-') →
      (∀ ch ∈ t1.data, ch ≠ '-') → (∀ ch ∈ t2.data, ch ≠ '-') →
      generateEventId h1 t1 d1 = generateEventId h2 t2 d2 →
      h1 = h2 ∧ t1 = t2 ∧ d1 = d2) := by
  constructor
  · intro blockHash type data
    rfl
  · intro h1 t1 d1 h2 t2 d2 hh1 hh2 ht1 ht2 heq
    have hdata := congrArg String.data heq
    rw [generateEventId_data, generateEventId_data] at hdata
    obtain ⟨hhash, hrest⟩ := sep_split '-' h1.data h2.data _ _ hh1 hh2 hdata
    obtain ⟨htype, hjson⟩ := sep_split '-' t1.data t2.data _ _ ht1 ht2 hrest
    refine ⟨String.ext hhash, String.ext htype, ?_⟩
    exact jsonStringifyFlat_inj (String.ext hjson)

/-- Witness for `generateEventId_deterministic_injective` at a concrete
hyphen-free triple. -/
theorem generateEventId_deterministic_injective_witness :
    ("0xabc" : String) = "0xabc" ∧ ("Minted" : String) = "Minted" ∧
      ([("to", "5Grw"), ("amount", "42")] : List (String × String)) =
        [("to", "5Grw"), ("amount", "42")] :=
  generateEventId_deterministic_injective.2 "0xabc" "Minted"
    [("to", "5Grw"), ("amount", "42")] "0xabc" "Minted" [("to", "5Grw"), ("amount", "42")]
    (by decide) (by decide) (by decide) (by decide) rfl
